import Mathlib

/-!
Verification development for the NNTV (Neural Network Training Visualizer)
repository.  The definitions below are a shallow embedding of the frontend
source files (`frontend/src/utils/websocket.js`, `App.jsx`,
`components/ControlPanel.jsx`, `components/HeatmapViewer.jsx`) together with a
model, built from the written specification, of the backend training-loop
worker whose source is not part of the repository snapshot.
-/

namespace NNTV

/-! ## JavaScript values

Configuration objects in the frontend hold either strings (dataset and
architecture names, raw form values) or numbers (learning rate, epochs, batch
size).  `parseFloat`/`parseInt` may fail, which JavaScript represents as `NaN`.
-/

/-- A JavaScript value as stored in the frontend configuration object:
a string, a finite number (modelled as a rational), `NaN`, or `undefined`. -/
inductive JSValue where
  | str (s : String)
  | num (q : ℚ)
  | nan
  | undef
deriving DecidableEq, Repr

/-! ## Socket helpers (`frontend/src/utils/websocket.js`)

The socket.io client instance is modelled by its connection flag together with
the multiset of event names that currently have a registered listener.
`socket.connect()` establishes the connection, `socket.disconnect()` closes it,
`socket.on(name, h)` registers a listener for `name`, and `socket.off(name)`
removes every listener registered for `name`.
-/

/-- The socket.io client instance: its connection state and the list of event
names with registered handlers (in registration order). -/
structure Socket where
  connected : Bool
  handlers : List String
deriving DecidableEq, Repr

/-- `socket.connect()`: establishes the connection. -/
def Socket.connect (s : Socket) : Socket :=
  { s with connected := true }

/-- `socket.disconnect()`: closes the connection. -/
def Socket.disconnect (s : Socket) : Socket :=
  { s with connected := false }

/-- `socket.on(event, handler)`: registers a handler for `event`. -/
def Socket.on (s : Socket) (event : String) : Socket :=
  { s with handlers := s.handlers ++ [event] }

/-- `socket.off(event)`: removes all handlers registered for `event`. -/
def Socket.off (s : Socket) (event : String) : Socket :=
  { s with handlers := s.handlers.filter (fun n => n ≠ event) }

/-- `connectSocket` from `websocket.js`: connect only when not already
connected. -/
def connectSocket (s : Socket) : Socket :=
  if !s.connected then s.connect else s

/-- `disconnectSocket` from `websocket.js`: disconnect only when currently
connected. -/
def disconnectSocket (s : Socket) : Socket :=
  if s.connected then s.disconnect else s

/-! ## The event plane (spec §6) and the App mount/cleanup effect (`App.jsx`) -/

/-- Modelled from the spec: the backend publisher is not part of the
repository snapshot; spec §6 lists the message types delivered on the push
channel: `status` (free-text), `log` (free-text), `training_update`
(ProgressEvent) and `training_complete` (terminal). -/
def eventPlaneTypes : List String :=
  ["status", "log", "training_update", "training_complete"]

/-- The body of App's mount `useEffect`: connect if not already connected,
then register one handler per event type, in source order. -/
def appMountEffect (s : Socket) : Socket :=
  let s1 := if !s.connected then connectSocket s else s
  ((((s1.on "status").on "log").on "training_update").on "training_complete")

/-- The cleanup function returned by App's mount `useEffect`: remove the four
subscriptions, then disconnect the push channel. -/
def appCleanupEffect (s : Socket) : Socket :=
  disconnectSocket
    ((((s.off "status").off "log").off "training_update").off "training_complete")

/-! ## App state and handlers (`App.jsx`) -/

/-- The fields of a `training_update` payload that App stores and charts. -/
structure ProgressEvent where
  epoch : Nat
  batch : Nat
  total_batches : Nat
  loss : ℚ
  accuracy : ℚ
deriving DecidableEq, Repr

/-- The part of App's React state that the claims are about: the training
status string, the latest metrics packet, the accumulated history for the
charts, and the log panel lines. -/
structure AppState where
  status : String
  metrics : Option ProgressEvent
  history : List ProgressEvent
  logs : List String
deriving DecidableEq, Repr

/-- `addLog` from `App.jsx` (the timestamp prefix is dropped in the model). -/
def addLog (msg : String) (s : AppState) : AppState :=
  { s with logs := s.logs ++ [msg] }

/-- What the `fetch` of `/api/start-training` came back with: either a parsed
response with its `ok` flag and extracted error message, or a thrown network
error (the `catch` branch). -/
inductive StartOutcome where
  | response (ok : Bool) (msg : String)
  | networkError (msg : String)
deriving DecidableEq, Repr

/-- `handleStart` from `App.jsx`: log the attempt, send the configuration, and
on an `ok` response set the status to `training` and reset the chart history;
otherwise only log (and alert) the error. -/
def handleStart (outcome : StartOutcome) (s : AppState) : AppState :=
  let s := addLog "Starting training..." s
  match outcome with
  | .response true _ => { s with status := "training", history := [] }
  | .response false msg => addLog ("Error starting: " ++ msg) s
  | .networkError msg => addLog ("Failed to start training: " ++ msg) s

/-- `handleStop` from `App.jsx`: log, request the stop, set status to idle. -/
def handleStop (s : AppState) : AppState :=
  addLog "Training stopped by user."
    { (addLog "Stopping training..." s) with status := "idle" }

/-- The `training_update` handler from App's mount effect: store the packet as
the latest metrics, append it to the history, and log every 100th batch. -/
def onTrainingUpdate (d : ProgressEvent) (s : AppState) : AppState :=
  let s := { s with metrics := some d, history := s.history ++ [d] }
  if d.batch % 100 == 0 then addLog "progress" s else s

/-- The `training_complete` handler from App's mount effect. -/
def onTrainingComplete (s : AppState) : AppState :=
  addLog "Training Complete!" { s with status := "complete" }

/-! ## ControlPanel (`components/ControlPanel.jsx`) -/

/-- `handleChange` from `ControlPanel.jsx`: read the changed input's `name`
and `value`, coerce the value (`parseFloat` for `lr`, `parseInt` for `epochs`
and `batch_size`, the raw string otherwise), and merge it into the previous
configuration object under that name.  `parseFloatFn` and `parseIntFn` stand
for the JavaScript built-ins, which are external to the repository. -/
def handleChange (parseFloatFn parseIntFn : String → JSValue)
    (prev : String → JSValue) (name value : String) : String → JSValue :=
  let finalValue := JSValue.str value
  let finalValue := if name = "lr" then parseFloatFn value else finalValue
  let finalValue :=
    if name = "epochs" || name = "batch_size" then parseIntFn value else finalValue
  fun k => if k = name then finalValue else prev k

/-- The control-relevant attributes of one render of `ControlPanel`: the
current value and the `disabled` attribute of each form control, and which
action button is shown.  The learning-rate slider carries no `disabled`
attribute in the source, so it is never disabled. -/
structure ControlPanelView where
  datasetValue : JSValue
  datasetDisabled : Bool
  architectureValue : JSValue
  architectureDisabled : Bool
  lrValue : JSValue
  lrDisabled : Bool
  epochsValue : JSValue
  epochsDisabled : Bool
  batchSizeValue : JSValue
  batchSizeDisabled : Bool
  showsStopButton : Bool
deriving DecidableEq, Repr

/-- One render of `ControlPanel.jsx` given the configuration object and the
`isTraining` prop. -/
def renderControlPanel (cfg : String → JSValue) (isTraining : Bool) :
    ControlPanelView where
  datasetValue := cfg "dataset"
  datasetDisabled := isTraining
  architectureValue := cfg "architecture"
  architectureDisabled := isTraining
  lrValue := cfg "lr"
  lrDisabled := false
  epochsValue := cfg "epochs"
  epochsDisabled := isTraining
  batchSizeValue := cfg "batch_size"
  batchSizeDisabled := isTraining
  showsStopButton := isTraining

/-! ## HeatmapViewer (`components/HeatmapViewer.jsx`) -/

/-- One entry of the layer drop-down: the layer identifier sent to
`/api/weights` and the human-readable label shown to the user. -/
structure LayerEntry where
  id : String
  name : String
deriving DecidableEq, Repr

/-- `ARCH_LAYERS` from `HeatmapViewer.jsx`: the hardcoded table of selectable
layers per architecture; indexing the object with a key it lacks yields
`undefined`, modelled as `none`. -/
def ARCH_LAYERS (architecture : String) : Option (List LayerEntry) :=
  if architecture = "mlp" then
    some [⟨"fc1.weight", "FC1 (Input -> Hidden 1)"⟩,
          ⟨"fc2.weight", "FC2 (Hidden 1 -> Hidden 2)"⟩,
          ⟨"fc3.weight", "FC3 (Hidden 2 -> Output)"⟩]
  else if architecture = "lenet" then
    some [⟨"conv1.weight", "Conv1 (Input -> FeatMap 1)"⟩,
          ⟨"conv2.weight", "Conv2 (FeatMap 1 -> FeatMap 2)"⟩,
          ⟨"fc1.weight", "FC1 (FeatMap -> Hidden)"⟩,
          ⟨"fc2.weight", "FC2 (Hidden -> Output)"⟩]
  else if architecture = "resnet" then
    some [⟨"model.conv1.weight", "Conv1 (Initial)"⟩,
          ⟨"model.layer1.0.conv1.weight", "Block1 Conv1"⟩,
          ⟨"model.layer2.0.conv1.weight", "Block2 Conv1"⟩,
          ⟨"model.fc.weight", "FC (Final Output)"⟩]
  else none

/-- `currentLayers` from `HeatmapViewer.jsx`:
`(appConfig && ARCH_LAYERS[appConfig.architecture]) || ARCH_LAYERS['mlp']`. -/
def currentLayers (architecture : String) : List LayerEntry :=
  match ARCH_LAYERS architecture with
  | some ls => ls
  | none => (ARCH_LAYERS "mlp").getD []

/-- The layer-reset `useEffect` of `HeatmapViewer.jsx`: when the configured
architecture has a table, the selected layer becomes the first entry's id,
otherwise the selection is left alone. -/
def updateLayerOnConfigChange (architecture cur : String) : String :=
  match ARCH_LAYERS architecture with
  | some ls => (ls.headD ⟨"", ""⟩).id
  | none => cur

/-- The outcome of one `/api/weights` fetch inside `fetchWeights`: success
with the measured request duration in milliseconds, or a thrown error. -/
inductive FetchResult where
  | ok (duration : Nat)
  | err
deriving DecidableEq, Repr

/-- The delay (ms) that `fetchWeights` schedules before its next poll:
`Math.min(2000, Math.max(500, duration))` on success, 3000 on error. -/
def nextPollDelay : FetchResult → Nat
  | .ok duration => min 2000 (max 500 duration)
  | .err => 3000

/-- The guard of HeatmapViewer's polling effect:
`if (isTraining) { fetchWeights(); }`. -/
def pollingStarted (isTraining : Bool) : Bool :=
  if isTraining then true else false

/-! ### Heatmap colour computation (canvas-rendering effect)

Weights are finite JavaScript numbers; the model uses exact rationals.
-/

/-- `maxVal` from the canvas-rendering effect: the maximum absolute value
over all cells, accumulated by the nested `forEach` starting from 0. -/
def matrixMaxAbs (data : List (List ℚ)) : ℚ :=
  data.foldl (fun acc row => row.foldl (fun a v => max a |v|) acc) 0

/-- One computed heatmap colour, channels as exact rationals. -/
structure RGB where
  r : ℚ
  g : ℚ
  b : ℚ
deriving DecidableEq, Repr

/-- The per-cell colour computation of the canvas-rendering effect:
`normVal = val / (maxVal || 1)`, then red-ward fade for positive values and
blue-ward fade for non-positive ones, starting from white. -/
def cellColor (maxVal val : ℚ) : RGB :=
  let normVal := val / (if maxVal = 0 then 1 else maxVal)
  if normVal > 0 then
    ⟨255, 255 * (1 - normVal), 255 * (1 - normVal)⟩
  else
    ⟨255 * (1 + normVal), 255 * (1 + normVal), 255⟩

/-! ## Training Loop Worker (spec §4.2–§4.4)

Modelled from the spec: the backend (Flask/PyTorch training orchestrator) is
not part of the repository snapshot, so the Training Loop Worker of spec §4.3
is modelled from the specification text.  Per step the worker draws a batch,
applies the gradient step, every K batches emits a ProgressEvent tagged with
the current `(epoch, batch)`, consumes pending control commands at the batch
boundary, and advances `current_batch`, wrapping to the next epoch when the
epoch's batches are exhausted.
-/

/-- The worker-visible session state of spec §3: progress counters, the
batch/epoch bounds, the reporting cadence K, and the control flags. -/
structure WorkerState where
  currentEpoch : Nat
  currentBatch : Nat
  totalBatches : Nat
  epochCount : Nat
  reportEvery : Nat
  stopRequested : Bool
  pauseRequested : Bool
deriving DecidableEq, Repr

/-- Modelled from the spec: the control commands of spec §4.2 that a running
worker can receive at a batch boundary.  `reconfigure` hot-patches the
learning rate and swaps the batch iterator, which may change the number of
batches per epoch. -/
inductive Command where
  | stop
  | pause
  | resume
  | reconfigure (lr : ℚ) (newTotalBatches : Nat)
deriving DecidableEq, Repr

/-- Modelled from the spec: the effect of one control command on the worker
state (spec §4.2).  Commands only touch flags and the batch iterator; none of
them rewinds `current_epoch`/`current_batch`. -/
def applyCommand (s : WorkerState) : Command → WorkerState
  | .stop => { s with stopRequested := true }
  | .pause => { s with pauseRequested := true }
  | .resume => { s with pauseRequested := false }
  | .reconfigure _ tb => { s with totalBatches := tb }

/-- Modelled from the spec: the reporting decision of one completed training
step (spec §4.3).  The step completes batch `currentBatch + 1`; every
`reportEvery` batches the worker hands off a ProgressEvent tagged with the
current `(epoch, batch)` of the just-completed step. -/
def stepEmit (s : WorkerState) : Option (Nat × Nat) :=
  if (s.currentBatch + 1) % s.reportEvery == 0 then
    some (s.currentEpoch, s.currentBatch + 1)
  else none

/-- Modelled from the spec: advancing the progress counters after a completed
step (spec §4.3): `current_batch` advances, wrapping to the next epoch when
the epoch's batches are exhausted. -/
def stepAdvance (s : WorkerState) : WorkerState :=
  if s.currentBatch + 1 ≥ s.totalBatches then
    { s with currentEpoch := s.currentEpoch + 1, currentBatch := 0 }
  else
    { s with currentBatch := s.currentBatch + 1 }

/-- Modelled from the spec: the worker's loop (spec §4.3), driven by the
sequence of batch boundaries; at each boundary at most one pending control
command is consumed, then the worker exits on `stop_requested` or on
exhausting `epoch_count`, blocks while `pause_requested`, and otherwise
completes one step.  Returns the `(epoch, batch)` tags of the ProgressEvents
the run emits, in emission order. -/
def workerRun (s : WorkerState) : List (Option Command) → List (Nat × Nat)
  | [] => []
  | c :: cs =>
    let s1 := match c with
      | some cmd => applyCommand s cmd
      | none => s
    if s1.stopRequested then []
    else if s1.currentEpoch ≥ s1.epochCount then []
    else if s1.pauseRequested then workerRun s1 cs
    else
      match stepEmit s1 with
      | some ev => ev :: workerRun (stepAdvance s1) cs
      | none => workerRun (stepAdvance s1) cs

/-- The strict emission order of spec §3: `(epoch, batch)` pairs compared
lexicographically, epoch first. -/
def ebLt (p q : Nat × Nat) : Prop :=
  p.1 < q.1 ∨ (p.1 = q.1 ∧ p.2 < q.2)

instance (p q : Nat × Nat) : Decidable (ebLt p q) :=
  inferInstanceAs (Decidable (p.1 < q.1 ∨ (p.1 = q.1 ∧ p.2 < q.2)))

/-! ## Lemmas about the worker model -/

theorem ebLt_trans {p q r : Nat × Nat} (h1 : ebLt p q) (h2 : ebLt q r) :
    ebLt p r := by
  unfold ebLt at h1 h2 ⊢
  omega

theorem ebLt_ne {p q : Nat × Nat} (h : ebLt p q) : p ≠ q := by
  unfold ebLt at h
  intro hpq
  rw [hpq] at h
  omega

theorem applyCommand_currentEpoch (s : WorkerState) (c : Command) :
    (applyCommand s c).currentEpoch = s.currentEpoch := by
  cases c <;> rfl

theorem applyCommand_currentBatch (s : WorkerState) (c : Command) :
    (applyCommand s c).currentBatch = s.currentBatch := by
  cases c <;> rfl

theorem stepAdvance_gt (s : WorkerState) :
    ebLt (s.currentEpoch, s.currentBatch)
      ((stepAdvance s).currentEpoch, (stepAdvance s).currentBatch) := by
  unfold stepAdvance ebLt
  split <;> simp

theorem stepEmit_eq (s : WorkerState) (ev : Nat × Nat)
    (h : stepEmit s = some ev) :
    ev = (s.currentEpoch, s.currentBatch + 1) := by
  unfold stepEmit at h
  split at h <;> simp_all

theorem stepEmit_le_advance (s : WorkerState) (ev : Nat × Nat)
    (h : stepEmit s = some ev) :
    ev = ((stepAdvance s).currentEpoch, (stepAdvance s).currentBatch) ∨
    ebLt ev ((stepAdvance s).currentEpoch, (stepAdvance s).currentBatch) := by
  rw [stepEmit_eq s ev h]
  unfold stepAdvance ebLt
  split <;> simp

theorem workerRun_sound (cs : List (Option Command)) (s : WorkerState) :
    (∀ p ∈ workerRun s cs, ebLt (s.currentEpoch, s.currentBatch) p) ∧
    List.Pairwise ebLt (workerRun s cs) := by
  induction cs generalizing s with
  | nil =>
    refine ⟨?_, ?_⟩
    · intro p hp
      simp [workerRun] at hp
    · simp [workerRun]
  | cons c cs ih =>
    have hbody : ∀ t : WorkerState,
        (∀ p ∈ workerRun t (none :: cs), ebLt (t.currentEpoch, t.currentBatch) p) ∧
        List.Pairwise ebLt (workerRun t (none :: cs)) := by
      intro t
      rw [show workerRun t (none :: cs) =
          (if t.stopRequested then []
           else if t.currentEpoch ≥ t.epochCount then []
           else if t.pauseRequested then workerRun t cs
           else match stepEmit t with
             | some ev => ev :: workerRun (stepAdvance t) cs
             | none => workerRun (stepAdvance t) cs) from rfl]
      by_cases h1 : t.stopRequested = true
      · rw [if_pos h1]
        exact ⟨fun p hp => absurd hp (List.not_mem_nil p), List.Pairwise.nil⟩
      · rw [if_neg h1]
        by_cases h2 : t.currentEpoch ≥ t.epochCount
        · rw [if_pos h2]
          exact ⟨fun p hp => absurd hp (List.not_mem_nil p), List.Pairwise.nil⟩
        · rw [if_neg h2]
          by_cases h3 : t.pauseRequested = true
          · rw [if_pos h3]
            exact ih t
          · rw [if_neg h3]
            rcases hev : stepEmit t with _ | ev
            · refine ⟨fun p hp => ?_, ((ih (stepAdvance t)).2 : _)⟩
              exact ebLt_trans (stepAdvance_gt t) ((ih (stepAdvance t)).1 p hp)
            · have hevEq := stepEmit_eq t ev hev
              refine ⟨?_, ?_⟩
              · intro p hp
                rcases List.mem_cons.mp hp with rfl | hp
                · rw [hevEq]
                  unfold ebLt
                  omega
                · exact ebLt_trans (stepAdvance_gt t) ((ih (stepAdvance t)).1 p hp)
              · refine List.pairwise_cons.mpr ⟨?_, (ih (stepAdvance t)).2⟩
                intro p hp
                have hpgt := (ih (stepAdvance t)).1 p hp
                rcases stepEmit_le_advance t ev hev with heq | hlt
                · rw [heq]; exact hpgt
                · exact ebLt_trans hlt hpgt
    cases c with
    | none => exact hbody s
    | some cmd =>
      have h := hbody (applyCommand s cmd)
      rw [show workerRun (applyCommand s cmd) (none :: cs) =
            workerRun s (some cmd :: cs) from rfl,
          applyCommand_currentEpoch, applyCommand_currentBatch] at h
      exact h

/-! ## Lemmas about the heatmap colour computation -/

theorem le_foldl_max_abs (l : List ℚ) (a : ℚ) :
    a ≤ l.foldl (fun x v => max x |v|) a := by
  induction l generalizing a with
  | nil => exact le_refl a
  | cons x xs ih => exact le_trans (le_max_left a |x|) (ih (max a |x|))

theorem mem_le_foldl_max_abs (l : List ℚ) (v : ℚ) (hv : v ∈ l) (a : ℚ) :
    |v| ≤ l.foldl (fun x w => max x |w|) a := by
  induction hv generalizing a with
  | head as => exact le_trans (le_max_right a |v|) (le_foldl_max_abs as (max a |v|))
  | tail b hmem ih => exact ih (max a |b|)

theorem le_foldl_rows (m : List (List ℚ)) (a : ℚ) :
    a ≤ m.foldl (fun acc row => row.foldl (fun x v => max x |v|) acc) a := by
  induction m generalizing a with
  | nil => exact le_refl a
  | cons r rs ih => exact le_trans (le_foldl_max_abs r a) (ih _)

theorem cell_abs_le_foldl (m : List (List ℚ)) (row : List ℚ) (v : ℚ)
    (hrow : row ∈ m) (hv : v ∈ row) (a : ℚ) :
    |v| ≤ m.foldl (fun acc r => r.foldl (fun x w => max x |w|) acc) a := by
  induction hrow generalizing a with
  | head as => exact le_trans (mem_le_foldl_max_abs row v hv a) (le_foldl_rows as _)
  | tail b hmem ih => exact ih _

theorem cell_abs_le_matrixMaxAbs (m : List (List ℚ)) (row : List ℚ) (v : ℚ)
    (hrow : row ∈ m) (hv : v ∈ row) : |v| ≤ matrixMaxAbs m :=
  cell_abs_le_foldl m row v hrow hv 0

theorem matrixMaxAbs_nonneg (m : List (List ℚ)) : 0 ≤ matrixMaxAbs m :=
  le_foldl_rows m 0

theorem cellColor_channels_bounded (M v : ℚ) (hM : 0 ≤ M) (hv : |v| ≤ M) :
    0 ≤ (cellColor M v).r ∧ (cellColor M v).r ≤ 255 ∧
    0 ≤ (cellColor M v).g ∧ (cellColor M v).g ≤ 255 ∧
    0 ≤ (cellColor M v).b ∧ (cellColor M v).b ≤ 255 := by
  unfold cellColor
  set d : ℚ := if M = 0 then 1 else M with hd
  have hdpos : (0 : ℚ) < d := by
    rw [hd]
    split
    · norm_num
    · rename_i h0
      exact lt_of_le_of_ne hM (Ne.symm h0)
  have hvd : |v| ≤ d := by
    rw [hd]
    split
    · rename_i h0
      rw [h0] at hv
      exact le_trans hv (by norm_num)
    · exact hv
  have habs : |v / d| ≤ 1 := by
    rw [abs_div, abs_of_pos hdpos, div_le_one hdpos]
    exact hvd
  obtain ⟨hlo, hhi⟩ := abs_le.mp habs
  by_cases hn : v / d > 0
  · rw [if_pos hn]
    refine ⟨by norm_num, by norm_num, ?_, ?_, ?_, ?_⟩ <;> dsimp only [] <;> linarith
  · rw [if_neg hn]
    push_neg at hn
    refine ⟨?_, ?_, ?_, ?_, by norm_num, by norm_num⟩ <;> dsimp only [] <;> linarith

theorem cellColor_zero (M : ℚ) : cellColor M 0 = ⟨255, 255, 255⟩ := by
  unfold cellColor
  norm_num

theorem cellColor_max_pos (M : ℚ) (hM : 0 < M) : cellColor M M = ⟨255, 0, 0⟩ := by
  unfold cellColor
  rw [if_neg (ne_of_gt hM), div_self (ne_of_gt hM), if_pos (by norm_num)]
  norm_num

theorem cellColor_max_neg (M : ℚ) (hM : 0 < M) :
    cellColor M (-M) = ⟨0, 0, 255⟩ := by
  unfold cellColor
  rw [if_neg (ne_of_gt hM), neg_div, div_self (ne_of_gt hM)]
  rw [if_neg (by norm_num)]
  norm_num

/-! ## Lemmas about the socket helpers and the App mount/cleanup effect -/

theorem connectSocket_handlers (s : Socket) :
    (connectSocket s).handlers = s.handlers := by
  unfold connectSocket Socket.connect
  split <;> rfl

theorem disconnectSocket_handlers (s : Socket) :
    (disconnectSocket s).handlers = s.handlers := by
  unfold disconnectSocket Socket.disconnect
  split <;> rfl

theorem disconnectSocket_connected (s : Socket) :
    (disconnectSocket s).connected = false := by
  unfold disconnectSocket Socket.disconnect
  split
  · rfl
  · rename_i h
    simpa using h

theorem appMountEffect_handlers (s : Socket) :
    (appMountEffect s).handlers = s.handlers ++ eventPlaneTypes := by
  unfold appMountEffect Socket.on eventPlaneTypes
  by_cases h : s.connected = true <;>
    simp [h, connectSocket_handlers]

theorem appCleanupEffect_handlers (s : Socket) :
    (appCleanupEffect s).handlers =
      s.handlers.filter (fun n => !(eventPlaneTypes.contains n)) := by
  unfold appCleanupEffect
  rw [disconnectSocket_handlers]
  unfold Socket.off
  induction s.handlers with
  | nil => rfl
  | cons x xs ih =>
    by_cases h1 : x = "status" <;> by_cases h2 : x = "log" <;>
      by_cases h3 : x = "training_update" <;> by_cases h4 : x = "training_complete" <;>
      simp_all [eventPlaneTypes, List.filter_cons]

/-! ## Claim theorems -/

/-- C1: the specification (and the repository README) state that both
`learning_rate` and `batch_size` stay editable on the control surface during
an active run, with only dataset and architecture requiring a restart.  In
the code, while `isTraining` is true the batch-size select is rendered with
`disabled` set, so batch size cannot be changed mid-run; only the
learning-rate slider stays enabled. -/
theorem c1_batch_size_select_disabled_while_training (cfg : String → JSValue) :
    (renderControlPanel cfg true).batchSizeDisabled = true ∧
    (renderControlPanel cfg true).lrDisabled = false ∧
    (renderControlPanel cfg false).batchSizeDisabled = false :=
  ⟨rfl, rfl, rfl⟩

/-- C2: in every run of the modelled Training Loop Worker, whatever control
commands arrive at the batch boundaries, the `(epoch, batch)` tags of the
emitted ProgressEvents are strictly increasing in emission order, and no tag
is ever repeated. -/
theorem c2_progress_events_strictly_increasing
    (s : WorkerState) (cs : List (Option Command)) :
    List.Pairwise ebLt (workerRun s cs) ∧ (workerRun s cs).Nodup :=
  ⟨(workerRun_sound cs s).2,
   List.Pairwise.imp (fun h => ebLt_ne h) (workerRun_sound cs s).2⟩

/-- C3: a rejected start leaves the client state unchanged: on a non-ok
response, and likewise on a thrown network error, `handleStart` changes
neither the training status nor the accumulated metrics history; on an ok
response the status becomes `training` and the history resets to empty. -/
theorem c3_rejected_start_no_state_change (s : AppState) (msg : String) :
    ((handleStart (.response false msg) s).status = s.status ∧
     (handleStart (.response false msg) s).history = s.history) ∧
    ((handleStart (.networkError msg) s).status = s.status ∧
     (handleStart (.networkError msg) s).history = s.history) ∧
    ((handleStart (.response true msg) s).status = "training" ∧
     (handleStart (.response true msg) s).history = []) :=
  ⟨⟨rfl, rfl⟩, ⟨rfl, rfl⟩, ⟨rfl, rfl⟩⟩

/-- C4: the event plane carries exactly the four message types `status`,
`log`, `training_update` and `training_complete`; App's mount effect
subscribes one handler for each of the four (in that order), and its cleanup
removes exactly the subscriptions for those four names and disconnects the
push channel. -/
theorem c4_event_plane_subscriptions (s t : Socket) :
    eventPlaneTypes = ["status", "log", "training_update", "training_complete"] ∧
    (appMountEffect s).handlers = s.handlers ++ eventPlaneTypes ∧
    (appCleanupEffect t).handlers =
      t.handlers.filter (fun n => !(eventPlaneTypes.contains n)) ∧
    (appCleanupEffect t).connected = false :=
  ⟨rfl, appMountEffect_handlers s, appCleanupEffect_handlers t,
   disconnectSocket_connected _⟩

/-- C5: in every render of ControlPanel with `isTraining` true, the dataset
and architecture select controls are rendered with `disabled` set, so no
dataset or architecture change can be issued mid-run. -/
theorem c5_dataset_architecture_locked_while_training (cfg : String → JSValue) :
    (renderControlPanel cfg true).datasetDisabled = true ∧
    (renderControlPanel cfg true).architectureDisabled = true :=
  ⟨rfl, rfl⟩

/-- C6: after a successful `/api/weights` fetch taking `d` milliseconds, the
scheduled delay before the next poll is `min 2000 (max 500 d)`, i.e. `d`
clamped to the interval [500, 2000]; and the polling effect starts fetching
only while training is active. -/
theorem c6_adaptive_poll_delay (d : Nat) :
    nextPollDelay (.ok d) = min 2000 (max 500 d) ∧
    500 ≤ nextPollDelay (.ok d) ∧
    nextPollDelay (.ok d) ≤ 2000 ∧
    (500 ≤ d → d ≤ 2000 → nextPollDelay (.ok d) = d) ∧
    (d ≤ 500 → nextPollDelay (.ok d) = 500) ∧
    (2000 ≤ d → nextPollDelay (.ok d) = 2000) ∧
    pollingStarted false = false ∧
    pollingStarted true = true := by
  have h : nextPollDelay (.ok d) = min 2000 (max 500 d) := rfl
  rw [h]
  refine ⟨rfl, ?_, ?_, ?_, ?_, ?_, rfl, rfl⟩ <;> omega

/-- C6 witness: the clamp evaluated at an in-range, a too-small and a
too-large duration. -/
theorem c6_adaptive_poll_delay_witness :
    nextPollDelay (.ok 700) = 700 ∧
    nextPollDelay (.ok 100) = 500 ∧
    nextPollDelay (.ok 5000) = 2000 :=
  ⟨(c6_adaptive_poll_delay 700).2.2.2.1 (by decide) (by decide),
   (c6_adaptive_poll_delay 100).2.2.2.2.1 (by decide),
   (c6_adaptive_poll_delay 5000).2.2.2.2.2.1 (by decide)⟩

/-- C7: the layer tables are exactly the hardcoded ones of the claim
(per-architecture id lists); on an architecture change the selected layer
resets to the first entry of that architecture's table; and an architecture
absent from the table falls back to the mlp table for the selectable list. -/
theorem c7_arch_layer_tables (a cur : String) :
    (ARCH_LAYERS "mlp").map (fun ls => ls.map LayerEntry.id) =
      some ["fc1.weight", "fc2.weight", "fc3.weight"] ∧
    (ARCH_LAYERS "lenet").map (fun ls => ls.map LayerEntry.id) =
      some ["conv1.weight", "conv2.weight", "fc1.weight", "fc2.weight"] ∧
    (ARCH_LAYERS "resnet").map (fun ls => ls.map LayerEntry.id) =
      some ["model.conv1.weight", "model.layer1.0.conv1.weight",
            "model.layer2.0.conv1.weight", "model.fc.weight"] ∧
    updateLayerOnConfigChange "mlp" cur = "fc1.weight" ∧
    updateLayerOnConfigChange "lenet" cur = "conv1.weight" ∧
    updateLayerOnConfigChange "resnet" cur = "model.conv1.weight" ∧
    (a ≠ "mlp" → a ≠ "lenet" → a ≠ "resnet" →
      currentLayers a = currentLayers "mlp") := by
  refine ⟨rfl, rfl, rfl, rfl, rfl, rfl, ?_⟩
  intro h1 h2 h3
  have hnone : ARCH_LAYERS a = none := by
    unfold ARCH_LAYERS
    rw [if_neg h1, if_neg h2, if_neg h3]
  unfold currentLayers
  rw [hnone]
  rfl

/-- C7 witness: an unrecognized architecture string falls back to the mlp
table. -/
theorem c7_arch_layer_tables_witness :
    currentLayers "vgg" = currentLayers "mlp" :=
  (c7_arch_layer_tables "vgg" "fc1.weight").2.2.2.2.2.2
    (by decide) (by decide) (by decide)

/-- C8: for every cell value `v` of a matrix rendered by the heatmap, the
computed colour channels lie in [0, 255]; a zero weight maps to white; a
weight equal to the matrix's maximum absolute value maps to pure red when
positive and pure blue when negative; and on an all-zero matrix every cell
renders white (the normalizer divides by 1 when the maximum is 0, never by
zero). -/
theorem c8_heatmap_colors (data : List (List ℚ)) (row : List ℚ) (v : ℚ)
    (hrow : row ∈ data) (hv : v ∈ row) :
    (0 ≤ (cellColor (matrixMaxAbs data) v).r ∧
     (cellColor (matrixMaxAbs data) v).r ≤ 255 ∧
     0 ≤ (cellColor (matrixMaxAbs data) v).g ∧
     (cellColor (matrixMaxAbs data) v).g ≤ 255 ∧
     0 ≤ (cellColor (matrixMaxAbs data) v).b ∧
     (cellColor (matrixMaxAbs data) v).b ≤ 255) ∧
    cellColor (matrixMaxAbs data) 0 = ⟨255, 255, 255⟩ ∧
    (v = matrixMaxAbs data → 0 < v →
      cellColor (matrixMaxAbs data) v = ⟨255, 0, 0⟩) ∧
    (v = -(matrixMaxAbs data) → v < 0 →
      cellColor (matrixMaxAbs data) v = ⟨0, 0, 255⟩) ∧
    ((∀ r ∈ data, ∀ w ∈ r, w = (0 : ℚ)) →
      cellColor (matrixMaxAbs data) v = ⟨255, 255, 255⟩) := by
  refine ⟨cellColor_channels_bounded _ v (matrixMaxAbs_nonneg data)
      (cell_abs_le_matrixMaxAbs data row v hrow hv),
    cellColor_zero _, ?_, ?_, ?_⟩
  · intro hvm hvpos
    rw [hvm]
    exact cellColor_max_pos _ (hvm ▸ hvpos)
  · intro hvm hvneg
    have hMpos : 0 < matrixMaxAbs data := by
      rw [hvm] at hvneg
      linarith
    rw [hvm]
    exact cellColor_max_neg _ hMpos
  · intro hz
    rw [hz row hrow v hv]
    exact cellColor_zero _

/-- C8 witness: on the matrix [[1, -2]] the cell -2 is the negative extreme
and renders pure blue with channels in range. -/
theorem c8_heatmap_colors_witness :
    0 ≤ (cellColor (matrixMaxAbs [[(1 : ℚ), -2]]) (-2)).r ∧
    cellColor (matrixMaxAbs [[(1 : ℚ), -2]]) (-2) = ⟨0, 0, 255⟩ := by
  have hmax : matrixMaxAbs [[(1 : ℚ), -2]] = 2 := by
    simp [matrixMaxAbs]
  have h := c8_heatmap_colors [[(1 : ℚ), -2]] [(1 : ℚ), -2] (-2)
    (by simp) (by simp)
  exact ⟨h.1.1, h.2.2.2.1 (by rw [hmax]) (by norm_num)⟩

/-- C9: `handleChange` produces a configuration equal to the previous one
with only the changed field replaced: every other key reads unchanged, and
the stored value is `parseFloat` of the raw string for `lr`, `parseInt` for
`epochs` and `batch_size`, and the raw string otherwise. -/
theorem c9_handleChange_frame (parseFloatFn parseIntFn : String → JSValue)
    (prev : String → JSValue) (name value : String) :
    (∀ k, k ≠ name →
      handleChange parseFloatFn parseIntFn prev name value k = prev k) ∧
    handleChange parseFloatFn parseIntFn prev name value name =
      (if name = "lr" then parseFloatFn value
       else if name = "epochs" ∨ name = "batch_size" then parseIntFn value
       else JSValue.str value) := by
  constructor
  · intro k hk
    unfold handleChange
    exact if_neg hk
  · by_cases h1 : name = "lr"
    · subst h1
      simp [handleChange]
    · by_cases h2 : name = "epochs"
      · subst h2
        simp [handleChange]
      · by_cases h3 : name = "batch_size"
        · subst h3
          simp [handleChange]
        · simp [handleChange, h1, h2, h3]

/-- C9 witness: changing `lr` stores the parsed float under `lr` and leaves
the `dataset` field untouched. -/
theorem c9_handleChange_frame_witness :
    handleChange (fun _ => JSValue.num 5) (fun _ => JSValue.nan)
      (fun _ => JSValue.undef) "lr" "5" "dataset" = JSValue.undef ∧
    handleChange (fun _ => JSValue.num 5) (fun _ => JSValue.nan)
      (fun _ => JSValue.undef) "lr" "5" "lr" = JSValue.num 5 := by
  have h := c9_handleChange_frame (fun _ => JSValue.num 5)
    (fun _ => JSValue.nan) (fun _ => JSValue.undef) "lr" "5"
  exact ⟨h.1 "dataset" (by decide), by rw [h.2]; simp⟩

/-- C10: `connectSocket` and `disconnectSocket` are idempotent: each is a
no-op when the socket is already in the target state, and calling either
twice equals calling it once. -/
theorem c10_socket_helpers_idempotent (s : Socket) :
    (s.connected = true → connectSocket s = s) ∧
    (s.connected = false → disconnectSocket s = s) ∧
    connectSocket (connectSocket s) = connectSocket s ∧
    disconnectSocket (disconnectSocket s) = disconnectSocket s := by
  refine ⟨?_, ?_, ?_, ?_⟩
  · intro h
    simp [connectSocket, h]
  · intro h
    simp [disconnectSocket, h]
  · by_cases h : s.connected = true <;>
      simp [connectSocket, Socket.connect, h]
  · by_cases h : s.connected = true <;>
      simp [disconnectSocket, Socket.disconnect, h]

/-- C10 witness: the helpers are no-ops on an already-connected and an
already-disconnected socket respectively. -/
theorem c10_socket_helpers_idempotent_witness :
    connectSocket ⟨true, []⟩ = ⟨true, []⟩ ∧
    disconnectSocket ⟨false, []⟩ = ⟨false, []⟩ :=
  ⟨(c10_socket_helpers_idempotent ⟨true, []⟩).1 rfl,
   (c10_socket_helpers_idempotent ⟨false, []⟩).2.1 rfl⟩

end NNTV
